import Mathlib

/-!
Shallow embedding of `src/internal/sops/azkv/keysource.go` (package `azkv`)
and proofs about its credential-resolution, encrypt/decrypt, rotation and
byte-decoding behaviour.

Modelling conventions:
* Go strings carrying text (identifiers, credentials, error messages) are
  Lean `String`; Go byte slices and strings carrying binary data
  (data keys, ciphertext, authentication-file bytes) are `List Nat`
  (one `Nat < 256` per byte).
* External collaborators — the `azidentity` credential constructors, the
  Key Vault `crypto` client, and the YAML unmarshaller — are not part of
  this repository; each is passed in as an explicit record of functions
  mirroring the Go call signatures, and the definitions below translate
  the Go bodies over those records.
* A Go `(value, error)` multi-return that the caller assigns unconditionally
  is modelled as a pair `Option Token × Option String`; a Go call whose
  result is only consumed when `err == nil` is modelled as `Except`.
* `time.Time` / `time.Duration` are `Int` nanoseconds.
-/

namespace Azkv

/-- AZConfig contains the Service Principal fields as generated by `az`
(keysource.go lines 65–69). -/
structure AZConfig where
  appId : String
  tenant : String
  password : String
deriving DecidableEq, Repr

/-- AADConfig contains the selection of fields from an Azure authentication
file required for Active Directory authentication (keysource.go lines 52–61).
The Go struct embeds `AZConfig`; here it is the explicit field `az`. -/
structure AADConfig where
  az : AZConfig
  tenantId : String
  clientId : String
  clientSecret : String
  clientCertificate : String
  clientCertificatePassword : String
  clientCertificateSendChain : Bool
  authorityHost : String
deriving DecidableEq, Repr

/-- MasterKey is an Azure Key Vault key used to encrypt and decrypt SOPS'
data key (keysource.go lines 25–34). `token` is the `azcore.TokenCredential`
field, `none` when the Go interface value is nil. `creationDate` is the
creation timestamp in nanoseconds. -/
structure MasterKey (Token : Type) where
  vaultURL : String
  name : String
  version : String
  encryptedKey : List Nat
  creationDate : Int
  token : Option Token
deriving DecidableEq, Repr

/-- Record of the `azidentity` constructors called by `SetToken`. Each
constructor is a Go `(credential, error)` multi-return, assigned
unconditionally by the caller, hence a pair of options.
`parseCertificates` mirrors `azidentity.ParseCertificates`, a Go
`(certs, key, error)` triple (the Go code passes `[]byte` of the two
configuration strings; we pass the strings themselves). -/
structure AzIdentity (Token Cert PK : Type) where
  newClientSecretCredential : String → String → String → String → Option Token × Option String
  parseCertificates : String → String → Option Cert × Option PK × Option String
  newClientCertificateCredential : String → String → Option Cert → Option PK → Bool → String → Option Token × Option String
  newManagedIdentityCredential : String → Option Token × Option String

/-- The `azidentity.AzurePublicCloud` authority-host default. -/
def azurePublicCloud : String := "https://login.microsoftonline.com/"

/-- GetAuthorityHost returns the AuthorityHost, or the Azure Public Cloud
default (keysource.go lines 126–131). -/
def AADConfig.getAuthorityHost (s : AADConfig) : String :=
  if s.authorityHost ≠ "" then s.authorityHost else azurePublicCloud

/-- The error returned when no credential combination matches
(keysource.go lines 120–121). The Go message quotes each field name with
single quotation marks; the quotation marks are elided here. -/
def invalidDataMsg : String :=
  "invalid data: requires a clientId field, a combination of tenantId, clientId and clientSecret, or tenantId, clientId and clientCertificate"

/-- The tail of `SetToken` after the first Go `if` block: the legacy
`AZConfig` branch (keysource.go lines 107–112), the managed-identity branch
(lines 113–118) and the failure return (lines 120–121). Control reaches this
code whenever neither inner branch of the first block returned. -/
def AADConfig.setTokenRest {Token Cert PK : Type} (idp : AzIdentity Token Cert PK)
    (s : AADConfig) (key : MasterKey Token) : MasterKey Token × Option String :=
  if s.az.tenant ≠ "" ∧ s.az.appId ≠ "" ∧ s.az.password ≠ "" then
    let r := idp.newClientSecretCredential s.az.tenant s.az.appId s.az.password s.getAuthorityHost
    ({ key with token := r.1 }, r.2)
  else if s.clientId ≠ "" then
    let r := idp.newManagedIdentityCredential s.clientId
    ({ key with token := r.1 }, r.2)
  else (key, some invalidDataMsg)

/-- The body of `SetToken` for non-nil receiver and key
(keysource.go lines 90–121). In the certificate branch the Go code binds
`certs, pk, err := azidentity.ParseCertificates(...)` and immediately
overwrites `err` with the result of `NewClientCertificateCredential`, so the
parse error component `p.2.2` is never consulted; the translation reproduces
that. -/
def AADConfig.setTokenBody {Token Cert PK : Type} (idp : AzIdentity Token Cert PK)
    (s : AADConfig) (key : MasterKey Token) : MasterKey Token × Option String :=
  if s.tenantId ≠ "" ∧ s.clientId ≠ "" then
    if s.clientSecret ≠ "" then
      let r := idp.newClientSecretCredential s.tenantId s.clientId s.clientSecret s.getAuthorityHost
      ({ key with token := r.1 }, r.2)
    else if s.clientCertificate ≠ "" then
      let p := idp.parseCertificates s.clientCertificate s.clientCertificatePassword
      let r := idp.newClientCertificateCredential s.tenantId s.clientId p.1 p.2.1
        s.clientCertificateSendChain s.getAuthorityHost
      ({ key with token := r.1 }, r.2)
    else s.setTokenRest idp key
  else s.setTokenRest idp key

/-- SetToken (keysource.go lines 85–122). The Go receiver and the key may
both be nil (line 86: `if s == nil || key == nil { return nil }`), hence the
`Option` arguments. The result is the possibly-updated key together with the
returned error. -/
def AADConfig.setToken {Token Cert PK : Type} (idp : AzIdentity Token Cert PK) :
    Option AADConfig → Option (MasterKey Token) → Option (MasterKey Token) × Option String
  | some s, some key =>
    let r := s.setTokenBody idp key
    (some r.1, r.2)
  | _, key => (key, none)

/-! Concrete probe doubles used to evaluate `setToken` at specific inputs.
Each constructor of `azProbe` returns a distinct token value, so the result
token identifies which branch ran. -/

/-- A MasterKey record with no resolved token. -/
def keyProbe : MasterKey Nat :=
  { vaultURL := "https://v.example", name := "k1", version := "v1",
    encryptedKey := [], creationDate := 0, token := none }

/-- An identity-provider double whose four constructors succeed with
distinct token values 1 (client secret), 2 (client certificate) and
4 (managed identity); certificate parsing succeeds. -/
def azProbe : AzIdentity Nat Unit Unit :=
  { newClientSecretCredential := fun _ _ _ _ => (some 1, none)
    parseCertificates := fun _ _ => (some (), some (), none)
    newClientCertificateCredential := fun _ _ _ _ _ _ => (some 2, none)
    newManagedIdentityCredential := fun _ => (some 4, none) }

/-- An identity-provider double whose certificate parsing fails with an
error while every constructor still succeeds. -/
def azParseFail : AzIdentity Nat Unit Unit :=
  { newClientSecretCredential := fun _ _ _ _ => (some 1, none)
    parseCertificates := fun _ _ => (none, none, some "failed to parse certificate")
    newClientCertificateCredential := fun _ _ _ _ _ _ => (some 2, none)
    newManagedIdentityCredential := fun _ => (some 4, none) }

/-- The empty configuration: every field empty. -/
def emptyAAD : AADConfig :=
  { az := { appId := "", tenant := "", password := "" },
    tenantId := "", clientId := "", clientSecret := "", clientCertificate := "",
    clientCertificatePassword := "", clientCertificateSendChain := false,
    authorityHost := "" }

/-- A configuration with `tenantId` and `clientId` present and no other
credential field. -/
def cfgTenantClientOnly : AADConfig := { emptyAAD with tenantId := "t", clientId := "c" }

/-- A configuration taking the client-certificate branch with a malformed
certificate. -/
def cfgCertBad : AADConfig :=
  { emptyAAD with tenantId := "t", clientId := "c", clientCertificate := "not-a-cert" }

/-- A configuration with both `tenantId`/`clientId`/`clientSecret` and the
full legacy `tenant`/`appId`/`password` triple. -/
def cfgBoth : AADConfig :=
  { az := { appId := "legacy-app", tenant := "legacy-tenant", password := "legacy-pass" },
    tenantId := "t", clientId := "c", clientSecret := "s", clientCertificate := "",
    clientCertificatePassword := "", clientCertificateSendChain := false,
    authorityHost := "" }

/-- Claim C1: the spec (and the Go doc comment at keysource.go lines 80–81)
say the managed-identity branch requires a `clientId` with no `tenantId`,
so a config holding only `tenantId` and `clientId` should match no branch.
Evaluating the code at that config shows it does build the managed-identity
credential (token value 4 of the probe double) and returns no error. -/
theorem C1_managed_identity_despite_tenantId :
    AADConfig.setToken azProbe (some cfgTenantClientOnly) (some keyProbe) =
      (some { keyProbe with token := some 4 }, none) := rfl

/-- Claim C5: the empty config does fail with the invalid-data error, but a
config with only `tenantId` and `clientId` — which matches none of the four
spec-recognised field combinations — does not, because the code's fourth
branch tests `clientId` alone. -/
theorem C5_invalid_config_iff_eval :
    (AADConfig.setToken azProbe (some emptyAAD) (some keyProbe)).2 = some invalidDataMsg ∧
    (AADConfig.setToken azProbe (some cfgTenantClientOnly) (some keyProbe)).2 = none :=
  ⟨rfl, rfl⟩

/-- Claim C3: with a double whose certificate parsing fails but whose
credential constructor succeeds, `setToken` on a certificate-branch config
returns success with the constructed credential (token value 2): the parse
error is overwritten by the subsequent constructor call and never reaches
the caller. -/
theorem C3_parse_error_swallowed :
    AADConfig.setToken azParseFail (some cfgCertBad) (some keyProbe) =
      (some { keyProbe with token := some 2 }, none) := rfl

/-- Claim C6: when `tenantId`, `clientId` and `clientSecret` are all present,
`setToken` returns exactly the result of the client-secret constructor
applied to `tenantId`/`clientId`/`clientSecret`, regardless of the legacy
`tenant`/`appId`/`password` fields also being present (branch 1 beats
branch 3). -/
theorem C6_branch1_beats_legacy {Token Cert PK : Type} (idp : AzIdentity Token Cert PK)
    (s : AADConfig) (key : MasterKey Token)
    (h1 : s.tenantId ≠ "") (h2 : s.clientId ≠ "") (h3 : s.clientSecret ≠ "")
    (h4 : s.az.tenant ≠ "") (h5 : s.az.appId ≠ "") (h6 : s.az.password ≠ "") :
    AADConfig.setToken idp (some s) (some key) =
      (some { key with
                token := (idp.newClientSecretCredential s.tenantId s.clientId s.clientSecret s.getAuthorityHost).1 },
       (idp.newClientSecretCredential s.tenantId s.clientId s.clientSecret s.getAuthorityHost).2) := by
  simp [AADConfig.setToken, AADConfig.setTokenBody, h1, h2, h3]

/-- Witness for C6 at a concrete config holding both field triples: the
probe double's client-secret token 1 is selected. -/
theorem C6_witness :
    AADConfig.setToken azProbe (some cfgBoth) (some keyProbe) =
      (some { keyProbe with token := some 1 }, none) := by
  rw [C6_branch1_beats_legacy azProbe cfgBoth keyProbe (by decide) (by decide) (by decide)
    (by decide) (by decide) (by decide)]
  rfl

/-- Claim C10: a nil config or a nil key makes `setToken` return success
immediately, leaving the key argument untouched (in particular its token
unset) and raising no error. -/
theorem C10_nil_config_or_key {Token Cert PK : Type} (idp : AzIdentity Token Cert PK)
    (key : Option (MasterKey Token)) (s : AADConfig) :
    AADConfig.setToken idp none key = (key, none) ∧
    AADConfig.setToken idp (some s) none = (none, none) :=
  ⟨rfl, rfl⟩

/-! Key Record: encrypt / decrypt / rotation (keysource.go lines 143–186). -/

/-- The fixed algorithm identifier `crypto.AlgorithmRSAOAEP256` used by both
Encrypt and Decrypt. -/
inductive Alg where
  | rsaOAEP256
deriving DecidableEq, Repr

/-- Record of the Key Vault `crypto` package operations used by the
MasterKey: `crypto.NewClient(keyReference, token, nil)` and the client's
`Encrypt`/`Decrypt` operations (whose response `Result` is only consumed
when the returned error is nil, hence `Except`). -/
structure CryptoService (Token Client : Type) where
  newClient : String → Option Token → Except String Client
  encryptOp : Client → Alg → List Nat → Except String (List Nat)
  decryptOp : Client → Alg → List Nat → Except String (List Nat)

/-- ToString converts the key to a string representation
(keysource.go lines 184–186): the fully-qualified key reference
`vaultURL/keys/name/version`. -/
def MasterKey.toString {Token : Type} (key : MasterKey Token) : String :=
  key.vaultURL ++ "/keys/" ++ key.name ++ "/" ++ key.version

/-- Encrypt takes a SOPS data key, encrypts it with Key Vault and stores the
result in the EncryptedKey field (keysource.go lines 144–155). Returns the
updated key record on success. -/
def MasterKey.encrypt {Token Client : Type} (svc : CryptoService Token Client)
    (key : MasterKey Token) (dataKey : List Nat) : Except String (MasterKey Token) :=
  match svc.newClient key.toString key.token with
  | .error e => .error ("failed to construct client to encrypt data: " ++ e)
  | .ok c =>
    match svc.encryptOp c Alg.rsaOAEP256 dataKey with
    | .error e => .error ("failed to encrypt data: " ++ e)
    | .ok r => .ok { key with encryptedKey := r }

/-- EncryptIfNeeded encrypts the provided SOPS data key if it has not been
encrypted yet (keysource.go lines 158–163). -/
def MasterKey.encryptIfNeeded {Token Client : Type} (svc : CryptoService Token Client)
    (key : MasterKey Token) (dataKey : List Nat) : Except String (MasterKey Token) :=
  if key.encryptedKey = [] then key.encrypt svc dataKey else .ok key

/-- Decrypt decrypts the EncryptedKey field with Azure Key Vault and returns
the result (keysource.go lines 166–176). -/
def MasterKey.decrypt {Token Client : Type} (svc : CryptoService Token Client)
    (key : MasterKey Token) : Except String (List Nat) :=
  match svc.newClient key.toString key.token with
  | .error e => .error ("failed to construct client to decrypt data: " ++ e)
  | .ok c =>
    match svc.decryptOp c Alg.rsaOAEP256 key.encryptedKey with
    | .error e => .error ("failed to decrypt data: " ++ e)
    | .ok r => .ok r

/-- One nanosecond-valued `time.Hour`. -/
def timeHour : Int := 3600 * 1000000000

/-- NeedsRotation (keysource.go lines 179–181): whether `time.Since` the
creation date exceeds `time.Hour * 24 * 30 * 6`, with `now` the current
wall-clock time in nanoseconds. -/
def MasterKey.needsRotation {Token : Type} (key : MasterKey Token) (now : Int) : Bool :=
  decide (now - key.creationDate > timeHour * 24 * 30 * 6)

/-- Claim C2: with a resolved caller token and a service double for which
decrypt is a left inverse of encrypt, a successful `encrypt dataKey`
followed by `decrypt` on the resulting record returns exactly `dataKey`;
both operations address the same fully-qualified key reference with the
same token, and both pass the fixed `Alg.rsaOAEP256` identifier (visible in
the bodies of `MasterKey.encrypt` and `MasterKey.decrypt`). -/
theorem C2_encrypt_decrypt_roundtrip {Token Client : Type}
    (svc : CryptoService Token Client) (key key' : MasterKey Token) (dataKey : List Nat)
    (htok : key.token ≠ none)
    (hinv : ∀ c d r, svc.encryptOp c Alg.rsaOAEP256 d = .ok r →
      svc.decryptOp c Alg.rsaOAEP256 r = .ok d)
    (henc : key.encrypt svc dataKey = .ok key') :
    key'.decrypt svc = .ok dataKey ∧ key'.toString = key.toString ∧ key'.token = key.token := by
  unfold MasterKey.encrypt at henc
  split at henc
  · simp at henc
  · rename_i c hc
    split at henc
    · simp at henc
    · rename_i r he
      have hkey : key' = { key with encryptedKey := r } := by
        cases henc; rfl
      subst hkey
      refine ⟨?_, rfl, rfl⟩
      have hd := hinv c dataKey r he
      have hts : MasterKey.toString { key with encryptedKey := r } = key.toString := rfl
      unfold MasterKey.decrypt
      simp only [hts, hc, hd]

/-- A service double accepting any token (including none): encryption
prepends a zero byte, decryption drops the first byte. -/
def svcShift : CryptoService Nat Unit :=
  { newClient := fun _ _ => .ok ()
    encryptOp := fun _ _ d => .ok (0 :: d)
    decryptOp := fun _ _ r => .ok (r.drop 1) }

/-- A MasterKey record with a resolved token. -/
def keyTok : MasterKey Nat := { keyProbe with token := some 9 }

/-- Witness for C2: running the round trip through `svcShift` on the data
key `[10, 20, 30]` recovers it. -/
theorem C2_witness :
    ∃ key', keyTok.encrypt svcShift [10, 20, 30] = .ok key' ∧
      key'.decrypt svcShift = .ok [10, 20, 30] := by
  refine ⟨{ keyTok with encryptedKey := [0, 10, 20, 30] }, rfl, ?_⟩
  exact (C2_encrypt_decrypt_roundtrip svcShift keyTok _ [10, 20, 30] (by decide)
    (fun c d r h => by
      simp only [svcShift, Except.ok.injEq] at h
      simp [svcShift, ← h]) rfl).1

/-- A MasterKey record whose token is unset but whose encrypted payload is
present. -/
def keyNoTok : MasterKey Nat := { keyProbe with encryptedKey := [5, 6] }

/-- Counterexample to claim C4 as stated: with the caller token unset,
`encrypt` and `decrypt` do not fail — with a service double whose client
construction accepts a nil token, both succeed, so the code performed the
remote operations instead of failing fast. -/
theorem C4_counterexample :
    keyNoTok.token = none ∧
    keyNoTok.encrypt svcShift [1, 2] = .ok { keyNoTok with encryptedKey := [0, 1, 2] } ∧
    keyNoTok.decrypt svcShift = .ok [6] :=
  ⟨rfl, rfl, rfl⟩

/-- Claim C4 (amended): with the caller token unset, `encrypt` and `decrypt`
perform no fail-fast check: they pass the unset token straight to remote
client construction and carry out the remote operation, returning its
result (any failure would arrive only as a wrapped client-construction or
remote-operation error). -/
theorem C4_no_fail_fast_without_token {Token Client : Type}
    (svc : CryptoService Token Client) (key : MasterKey Token) (dataKey r r2 : List Nat)
    (c : Client)
    (htok : key.token = none)
    (hc : svc.newClient key.toString none = .ok c)
    (hr : svc.encryptOp c Alg.rsaOAEP256 dataKey = .ok r)
    (hr2 : svc.decryptOp c Alg.rsaOAEP256 key.encryptedKey = .ok r2) :
    key.encrypt svc dataKey = .ok { key with encryptedKey := r } ∧
    key.decrypt svc = .ok r2 := by
  constructor
  · unfold MasterKey.encrypt
    simp only [htok, hc, hr]
  · unfold MasterKey.decrypt
    simp only [htok, hc, hr2]

/-- Witness for the amended C4 at the concrete token-less key and the
token-indifferent service double. -/
theorem C4_amended_witness :
    keyNoTok.encrypt svcShift [1, 2] = .ok { keyNoTok with encryptedKey := [0, 1, 2] } ∧
    keyNoTok.decrypt svcShift = .ok [6] :=
  C4_no_fail_fast_without_token svcShift keyNoTok [1, 2] [0, 1, 2] [6] () rfl rfl rfl rfl

/-- Claim C7: when the encrypted payload is already non-empty,
`encryptIfNeeded` succeeds and returns the record unchanged — for every
service double, so no remote operation influences the result — and a second
call on the result of any successful call again returns it unchanged. -/
theorem C7_encryptIfNeeded_idempotent {Token Client : Type}
    (svc svc2 : CryptoService Token Client) (key : MasterKey Token) (d d2 : List Nat)
    (h : key.encryptedKey ≠ []) :
    key.encryptIfNeeded svc d = .ok key ∧
    (∀ key', key.encryptIfNeeded svc d = .ok key' →
      key'.encryptIfNeeded svc2 d2 = .ok key') := by
  have h1 : key.encryptIfNeeded svc d = .ok key := by
    unfold MasterKey.encryptIfNeeded
    rw [if_neg h]
  refine ⟨h1, fun key' hk => ?_⟩
  rw [h1] at hk
  cases hk
  unfold MasterKey.encryptIfNeeded
  rw [if_neg h]

/-- A service double on which every operation fails, so any attempted
remote call surfaces as an error. -/
def svcFailAll : CryptoService Nat Unit :=
  { newClient := fun _ _ => .error "unreachable service"
    encryptOp := fun _ _ _ => .error "unreachable service"
    decryptOp := fun _ _ _ => .error "unreachable service" }

/-- Witness for C7 at a record whose payload `[5, 6]` is already set, under
a service double that always fails (so any remote call would surface). -/
theorem C7_witness :
    keyNoTok.encryptedKey ≠ [] ∧
    keyNoTok.encryptIfNeeded svcFailAll [1] = .ok keyNoTok := by
  refine ⟨by decide, ?_⟩
  exact (C7_encryptIfNeeded_idempotent svcFailAll svcFailAll keyNoTok [1] [1] (by decide)).1

/-- Claim C8: `needsRotation` is a function of the creation timestamp and
the current time only, returning true exactly when the elapsed nanoseconds
exceed 180 days; it is false at the creation instant and true one
nanosecond past 180 days. -/
theorem C8_needsRotation_180_days {Token : Type} (key : MasterKey Token) (now : Int) :
    (key.needsRotation now = true ↔
      now - key.creationDate > 180 * 24 * 3600 * 1000000000) ∧
    key.needsRotation key.creationDate = false ∧
    key.needsRotation (key.creationDate + 180 * 24 * 3600 * 1000000000) = false ∧
    key.needsRotation (key.creationDate + 180 * 24 * 3600 * 1000000000 + 1) = true := by
  simp only [MasterKey.needsRotation, timeHour, decide_eq_true_eq, decide_eq_false_iff_not]
  omega

/-! Authentication-file decoding (keysource.go lines 39–48 and 199–218). -/

/-- Byte-order-mark classes distinguished by `utfbom.Skip`. -/
inductive BomEncoding where
  | utf32be
  | utf32le
  | utf8
  | utf16be
  | utf16le
  | unknown
deriving DecidableEq, Repr

/-- Whether `pre` occurs as the leading bytes of `b`. -/
def startsWithBytes : List Nat → List Nat → Bool
  | [], _ => true
  | _ :: _, [] => false
  | p :: ps, b :: bs => p == b && startsWithBytes ps bs

/-- Byte-order-mark detection as performed by `utfbom.Skip`
(github.com/dimchansky/utfbom): the four-byte UTF-32 marks are tested before
the three-byte UTF-8 mark and the two-byte UTF-16 marks. -/
def detectBom (b : List Nat) : BomEncoding :=
  if startsWithBytes [0x00, 0x00, 0xFE, 0xFF] b then .utf32be
  else if startsWithBytes [0xFF, 0xFE, 0x00, 0x00] b then .utf32le
  else if startsWithBytes [0xEF, 0xBB, 0xBF] b then .utf8
  else if startsWithBytes [0xFE, 0xFF] b then .utf16be
  else if startsWithBytes [0xFF, 0xFE] b then .utf16le
  else .unknown

/-- The number of bytes the detected byte-order mark occupies; `utfbom.Skip`
leaves the reader positioned after it. -/
def bomLength : BomEncoding → Nat
  | .utf32be => 4
  | .utf32le => 4
  | .utf8 => 3
  | .utf16be => 2
  | .utf16le => 2
  | .unknown => 0

/-- `binary.Read` of `n` little-endian `uint16` values from the remaining
bytes; `none` when fewer than `2 * n` bytes are available
(`io.ErrUnexpectedEOF`). -/
def readU16LE : List Nat → Nat → Option (List Nat)
  | _, 0 => some []
  | b0 :: b1 :: rest, n + 1 => (readU16LE rest n).map fun us => (b0 + 256 * b1) :: us
  | _, _ + 1 => none

/-- `binary.Read` of `n` big-endian `uint16` values. -/
def readU16BE : List Nat → Nat → Option (List Nat)
  | _, 0 => some []
  | b0 :: b1 :: rest, n + 1 => (readU16BE rest n).map fun us => (256 * b0 + b1) :: us
  | _, _ + 1 => none

/-- `unicode/utf16.Decode`: a high surrogate followed by a low surrogate
combines into one supplementary code point; any unpaired surrogate decodes
to the replacement character U+FFFD. -/
def utf16Decode : List Nat → List Nat
  | [] => []
  | [u] => if 0xD800 ≤ u ∧ u < 0xE000 then [0xFFFD] else [u]
  | u :: v :: rest =>
    if 0xD800 ≤ u ∧ u < 0xDC00 ∧ 0xDC00 ≤ v ∧ v < 0xE000 then
      (0x10000 + (u - 0xD800) * 0x400 + (v - 0xDC00)) :: utf16Decode rest
    else if 0xD800 ≤ u ∧ u < 0xE000 then
      0xFFFD :: utf16Decode (v :: rest)
    else
      u :: utf16Decode (v :: rest)

/-- UTF-8 byte sequence of one valid code point, by size class. -/
def utf8Bytes (r : Nat) : List Nat :=
  if r < 0x80 then [r]
  else if r < 0x800 then [0xC0 + r / 64, 0x80 + r % 64]
  else if r < 0x10000 then [0xE0 + r / 4096, 0x80 + r / 64 % 64, 0x80 + r % 64]
  else [0xF0 + r / 262144, 0x80 + r / 4096 % 64, 0x80 + r / 64 % 64, 0x80 + r % 64]

/-- UTF-8 bytes of one code point, as produced by Go's `string([]rune)`
conversion (`utf8.EncodeRune`): surrogates and values beyond U+10FFFF
encode as the replacement character. -/
def utf8EncodeChar (c : Nat) : List Nat :=
  utf8Bytes (if c < 0xD800 ∨ (0xE000 ≤ c ∧ c ≤ 0x10FFFF) then c else 0xFFFD)

/-- Go `string([]rune)` conversion as UTF-8 bytes. -/
def utf8Encode (s : List Nat) : List Nat := s.flatMap utf8EncodeChar

/-- decode (keysource.go lines 199–218): classify the byte-order mark; for
UTF-16 input read `len(b)/2 - 1` code units past the mark in the indicated
byte order and return the decoded text re-encoded as UTF-8; for every other
classification return the bytes after the mark (`ioutil.ReadAll` on the
skipped reader). -/
def decode (b : List Nat) : Except String (List Nat) :=
  match detectBom b with
  | .utf16le =>
    match readU16LE (b.drop 2) (b.length / 2 - 1) with
    | some us => .ok (utf8Encode (utf16Decode us))
    | none => .error "unexpected EOF"
  | .utf16be =>
    match readU16BE (b.drop 2) (b.length / 2 - 1) with
    | some us => .ok (utf8Encode (utf16Decode us))
    | none => .error "unexpected EOF"
  | e => .ok (b.drop (bomLength e))

/-- LoadAADConfigFromBytes (keysource.go lines 39–48), with the external
`yaml.Unmarshal` passed in as a function from the decoded bytes to the
parsed struct or an error. -/
def loadAADConfigFromBytes (unmarshal : List Nat → Except String AADConfig)
    (b : List Nat) : Except String AADConfig :=
  match decode b with
  | .error e => .error ("failed to decode Azure authentication file bytes: " ++ e)
  | .ok d =>
    match unmarshal d with
    | .error e => .error ("failed to unmarshal Azure authentication file: " ++ e)
    | .ok s => .ok s

/-! Construction of the claim's inputs: the UTF-16 little-endian encoding
(with byte-order mark) and the UTF-8 encoding of a text, the text being a
sequence of Unicode scalar values. -/

/-- A Unicode scalar value: any code point that is not a surrogate and is
at most U+10FFFF. -/
def IsScalar (c : Nat) : Prop := c < 0xD800 ∨ (0xE000 ≤ c ∧ c ≤ 0x10FFFF)

instance (c : Nat) : Decidable (IsScalar c) := by
  unfold IsScalar
  infer_instance

/-- UTF-16 code units of one scalar value. -/
def utf16EncodeChar (c : Nat) : List Nat :=
  if c < 0x10000 then [c]
  else [0xD800 + (c - 0x10000) / 0x400, 0xDC00 + (c - 0x10000) % 0x400]

/-- UTF-16 code units of a text. -/
def utf16Encode (s : List Nat) : List Nat := s.flatMap utf16EncodeChar

/-- Little-endian byte serialisation of 16-bit code units. -/
def u16BytesLE (us : List Nat) : List Nat := us.flatMap fun u => [u % 256, u / 256]

/-- The UTF-16 little-endian encoding of a text, preceded by its byte-order
mark `FF FE`. -/
def utf16leBomBytes (text : List Nat) : List Nat :=
  0xFF :: 0xFE :: u16BytesLE (utf16Encode text)

/-! Supporting lemmas for the encoding round trip. -/

/-- Every code unit emitted by the UTF-16 encoder of a scalar value fits in
sixteen bits. -/
lemma utf16EncodeChar_lt (c : Nat) (hc : IsScalar c) :
    ∀ u ∈ utf16EncodeChar c, u < 65536 := by
  intro u hu
  unfold IsScalar at hc
  unfold utf16EncodeChar at hu
  by_cases h : c < 0x10000
  · rw [if_pos h] at hu
    simp at hu
    omega
  · rw [if_neg h] at hu
    simp at hu
    rcases hu with h1 | h2 <;> omega

lemma utf16Encode_lt (s : List Nat) (hs : ∀ c ∈ s, IsScalar c) :
    ∀ u ∈ utf16Encode s, u < 65536 := by
  intro u hu
  unfold utf16Encode at hu
  rw [List.mem_flatMap] at hu
  obtain ⟨c, hc, hu⟩ := hu
  exact utf16EncodeChar_lt c (hs c hc) u hu

/-- Reading back little-endian serialised code units recovers them. -/
lemma readU16LE_u16BytesLE (us : List Nat) (h : ∀ u ∈ us, u < 65536) :
    readU16LE (u16BytesLE us) us.length = some us := by
  induction us with
  | nil => rfl
  | cons u rest ih =>
    have hu : u < 65536 := h u (by simp)
    have hrest : ∀ v ∈ rest, v < 65536 := fun v hv => h v (by simp [hv])
    have hb : u16BytesLE (u :: rest) = u % 256 :: u / 256 :: u16BytesLE rest := by
      simp [u16BytesLE, List.flatMap_cons]
    rw [hb, List.length_cons]
    simp only [readU16LE, ih hrest]
    have : u % 256 + 256 * (u / 256) = u := Nat.mod_add_div u 256
    rw [this]
    rfl

lemma u16BytesLE_length (us : List Nat) : (u16BytesLE us).length = 2 * us.length := by
  induction us with
  | nil => rfl
  | cons u rest ih =>
    simp [u16BytesLE, List.flatMap_cons] at *
    omega

/-- Decoding a non-surrogate code unit passes it through. -/
lemma utf16Decode_cons_nonsurrogate (c : Nat) (tail : List Nat)
    (h : c < 0xD800 ∨ 0xE000 ≤ c) :
    utf16Decode (c :: tail) = c :: utf16Decode tail := by
  cases tail with
  | nil =>
    simp only [utf16Decode]
    rw [if_neg (by omega)]
  | cons v vs =>
    simp only [utf16Decode]
    rw [if_neg (by omega), if_neg (by omega)]

/-- Decoding the surrogate pair of a supplementary code point recovers it. -/
lemma utf16Decode_cons_pair (c : Nat) (tail : List Nat)
    (h1 : 0x10000 ≤ c) (h2 : c ≤ 0x10FFFF) :
    utf16Decode ((0xD800 + (c - 0x10000) / 0x400) :: (0xDC00 + (c - 0x10000) % 0x400) :: tail) =
      c :: utf16Decode tail := by
  simp only [utf16Decode]
  rw [if_pos (by omega)]
  have he : 0x10000 + (0xD800 + (c - 0x10000) / 0x400 - 0xD800) * 0x400 +
      (0xDC00 + (c - 0x10000) % 0x400 - 0xDC00) = c := by omega
  rw [he]

/-- The UTF-16 encoder and decoder round-trip on texts of scalar values. -/
lemma utf16Decode_utf16Encode (s : List Nat) (hs : ∀ c ∈ s, IsScalar c) :
    utf16Decode (utf16Encode s) = s := by
  induction s with
  | nil => rfl
  | cons c rest ih =>
    have hc : IsScalar c := hs c (by simp)
    have hrest : ∀ d ∈ rest, IsScalar d := fun d hd => hs d (by simp [hd])
    unfold IsScalar at hc
    have henc : utf16Encode (c :: rest) = utf16EncodeChar c ++ utf16Encode rest := by
      simp [utf16Encode, List.flatMap_cons]
    rw [henc]
    by_cases h : c < 0x10000
    · rw [show utf16EncodeChar c = [c] from by unfold utf16EncodeChar; rw [if_pos h]]
      rw [List.cons_append, List.nil_append,
        utf16Decode_cons_nonsurrogate c _ (by omega), ih hrest]
    · rw [show utf16EncodeChar c =
          [0xD800 + (c - 0x10000) / 0x400, 0xDC00 + (c - 0x10000) % 0x400] from by
        unfold utf16EncodeChar; rw [if_neg h]]
      rw [List.cons_append, List.cons_append, List.nil_append,
        utf16Decode_cons_pair c _ (by omega) (by omega), ih hrest]

/-- A prefix test fails when the first bytes differ. -/
lemma startsWithBytes_false_head {p b : Nat} {ps bs : List Nat} (h : p ≠ b) :
    startsWithBytes (p :: ps) (b :: bs) = false := by
  simp [startsWithBytes, h]

/-- A prefix test fails when the second bytes differ. -/
lemma startsWithBytes_false_second {p q b c : Nat} {ps bs : List Nat} (h : q ≠ c) :
    startsWithBytes (p :: q :: ps) (b :: c :: bs) = false := by
  simp [startsWithBytes, h]

/-- A prefix test fails when the third bytes differ. -/
lemma startsWithBytes_false_third {p q r b c d : Nat} {ps bs : List Nat} (h : r ≠ d) :
    startsWithBytes (p :: q :: r :: ps) (b :: c :: d :: bs) = false := by
  simp [startsWithBytes, h]

/-- A prefix test fails when the fourth bytes differ. -/
lemma startsWithBytes_false_fourth {p q r s b c d e : Nat} {ps bs : List Nat} (h : s ≠ e) :
    startsWithBytes (p :: q :: r :: s :: ps) (b :: c :: d :: e :: bs) = false := by
  simp [startsWithBytes, h]

/-- No byte-order mark is detected at a head byte other than `00`, `FF`,
`FE` and `EF`, nor at `EF` when the following bytes are not `BB BF`. -/
lemma detectBom_unknown_of (b0 : Nat) (bs : List Nat)
    (h0 : b0 ≠ 0x00) (hFF : b0 ≠ 0xFF) (hFE : b0 ≠ 0xFE)
    (hEF : b0 = 0xEF → startsWithBytes [0xBB, 0xBF] bs = false) :
    detectBom (b0 :: bs) = .unknown := by
  have e1 : startsWithBytes [0x00, 0x00, 0xFE, 0xFF] (b0 :: bs) = false :=
    startsWithBytes_false_head (by omega)
  have e2 : startsWithBytes [0xFF, 0xFE, 0x00, 0x00] (b0 :: bs) = false :=
    startsWithBytes_false_head (by omega)
  have e4 : startsWithBytes [0xFE, 0xFF] (b0 :: bs) = false :=
    startsWithBytes_false_head (by omega)
  have e5 : startsWithBytes [0xFF, 0xFE] (b0 :: bs) = false :=
    startsWithBytes_false_head (by omega)
  have e3 : startsWithBytes [0xEF, 0xBB, 0xBF] (b0 :: bs) = false := by
    by_cases hb : b0 = 0xEF
    · subst hb
      simp [startsWithBytes, hEF rfl]
    · exact startsWithBytes_false_head (fun he => hb he.symm)
  simp [detectBom, e1, e2, e3, e4, e5]

/-- The mark `FF FE` classifies as UTF-16 little-endian unless followed by
two zero bytes (which `utfbom` takes for the UTF-32 little-endian mark). -/
lemma detectBom_utf16le (payload : List Nat)
    (h : ∀ p0 p1 rest, payload = p0 :: p1 :: rest → ¬(p0 = 0 ∧ p1 = 0)) :
    detectBom (0xFF :: 0xFE :: payload) = .utf16le := by
  cases payload with
  | nil => rfl
  | cons p0 tail =>
    cases tail with
    | nil =>
      simp [detectBom, startsWithBytes]
    | cons p1 rest =>
      have hne := h p0 p1 rest rfl
      have e1 : startsWithBytes [0x00, 0x00, 0xFE, 0xFF] (0xFF :: 0xFE :: p0 :: p1 :: rest) = false :=
        startsWithBytes_false_head (by omega)
      have e2 : startsWithBytes [0xFF, 0xFE, 0x00, 0x00] (0xFF :: 0xFE :: p0 :: p1 :: rest) = false := by
        by_cases h0 : p0 = 0
        · exact startsWithBytes_false_fourth (fun he => hne ⟨h0, he.symm⟩)
        · exact startsWithBytes_false_third (fun he => h0 he.symm)
      have e3 : startsWithBytes [0xEF, 0xBB, 0xBF] (0xFF :: 0xFE :: p0 :: p1 :: rest) = false :=
        startsWithBytes_false_head (by omega)
      have e4 : startsWithBytes [0xFE, 0xFF] (0xFF :: 0xFE :: p0 :: p1 :: rest) = false :=
        startsWithBytes_false_head (by omega)
      simp [detectBom, e1, e2, e3, e4, startsWithBytes]
      omega

/-- On a scalar value the replacement-character guard of the UTF-8 encoder
is inert. -/
lemma utf8EncodeChar_scalar (c : Nat) (hc : IsScalar c) :
    utf8EncodeChar c = utf8Bytes c := by
  unfold utf8EncodeChar IsScalar at *
  rw [if_pos hc]

/-- Decoding the UTF-16 little-endian serialisation of a text (with its
byte-order mark) yields the UTF-8 bytes of the text, provided the text is
made of scalar values and does not begin with U+0000 (which `utfbom` would
take for part of a UTF-32 mark). -/
lemma decode_utf16leBomBytes (text : List Nat) (hs : ∀ c ∈ text, IsScalar c)
    (h0 : text.head? ≠ some 0) :
    decode (utf16leBomBytes text) = .ok (utf8Encode text) := by
  have hlt : ∀ u ∈ utf16Encode text, u < 65536 := utf16Encode_lt text hs
  have hdet : detectBom (utf16leBomBytes text) = .utf16le := by
    unfold utf16leBomBytes
    apply detectBom_utf16le
    intro p0 p1 rest hpay hz
    cases text with
    | nil => simp [utf16Encode, u16BytesLE] at hpay
    | cons c rest' =>
      have hc0 : c ≠ 0 := fun h => h0 (by simp [h])
      have hchar : ∃ u0 tailu, utf16EncodeChar c = u0 :: tailu ∧ u0 ≠ 0 := by
        unfold utf16EncodeChar
        by_cases h : c < 0x10000
        · exact ⟨c, [], by rw [if_pos h], hc0⟩
        · exact ⟨0xD800 + (c - 0x10000) / 0x400, [0xDC00 + (c - 0x10000) % 0x400],
            by rw [if_neg h], by omega⟩
      obtain ⟨u0, tailu, hchar, hu0⟩ := hchar
      have henc : utf16Encode (c :: rest') = u0 :: (tailu ++ utf16Encode rest') := by
        simp [utf16Encode, List.flatMap_cons, hchar]
      rw [henc] at hpay
      have hb : u16BytesLE (u0 :: (tailu ++ utf16Encode rest')) =
          u0 % 256 :: u0 / 256 :: u16BytesLE (tailu ++ utf16Encode rest') := by
        simp [u16BytesLE, List.flatMap_cons]
      rw [hb] at hpay
      injection hpay with h1 hpay
      injection hpay with h2 hpay
      omega
  have hdrop : (utf16leBomBytes text).drop 2 = u16BytesLE (utf16Encode text) := rfl
  have hlen : (utf16leBomBytes text).length / 2 - 1 = (utf16Encode text).length := by
    simp [utf16leBomBytes, u16BytesLE_length]
    omega
  unfold decode
  simp only [hdet, hdrop, hlen, readU16LE_u16BytesLE _ hlt,
    utf16Decode_utf16Encode text hs]

/-- The UTF-8 bytes of a text carry no detectable byte-order mark, provided
the text is made of scalar values and begins neither with U+0000 nor with
U+FEFF (whose UTF-8 bytes are exactly the UTF-8 byte-order mark). -/
lemma detectBom_utf8Encode (text : List Nat) (hs : ∀ c ∈ text, IsScalar c)
    (h0 : text.head? ≠ some 0) (hbom : text.head? ≠ some 0xFEFF) :
    detectBom (utf8Encode text) = .unknown := by
  cases text with
  | nil => rfl
  | cons c rest =>
    have hc0 : c ≠ 0 := fun h => h0 (by simp [h])
    have hcb : c ≠ 0xFEFF := fun h => hbom (by simp [h])
    have hcs : IsScalar c := hs c (by simp)
    have henc : utf8Encode (c :: rest) = utf8EncodeChar c ++ utf8Encode rest := by
      simp [utf8Encode, List.flatMap_cons]
    rw [henc, utf8EncodeChar_scalar c hcs]
    unfold IsScalar at hcs
    unfold utf8Bytes
    by_cases hA : c < 0x80
    · rw [if_pos hA]
      simp only [List.cons_append, List.nil_append]
      exact detectBom_unknown_of _ _ hc0 (by omega) (by omega) (fun h => absurd h (by omega))
    · by_cases hB : c < 0x800
      · rw [if_neg hA, if_pos hB]
        simp only [List.cons_append, List.nil_append]
        exact detectBom_unknown_of _ _ (by omega) (by omega) (by omega)
          (fun h => absurd h (by omega))
      · by_cases hC : c < 0x10000
        · rw [if_neg hA, if_neg hB, if_pos hC]
          simp only [List.cons_append, List.nil_append]
          apply detectBom_unknown_of _ _ (by omega) (by omega) (by omega)
          intro hEF
          by_cases hx : (0xBB : Nat) = 0x80 + c / 64 % 64
          · exact startsWithBytes_false_second (by omega)
          · exact startsWithBytes_false_head hx
        · rw [if_neg hA, if_neg hB, if_neg hC]
          simp only [List.cons_append, List.nil_append]
          exact detectBom_unknown_of _ _ (by omega) (by omega) (by omega)
            (fun h => absurd h (by omega))

/-- Under the same side conditions, `decode` passes UTF-8 input through
unchanged. -/
lemma decode_utf8Encode (text : List Nat) (hs : ∀ c ∈ text, IsScalar c)
    (h0 : text.head? ≠ some 0) (hbom : text.head? ≠ some 0xFEFF) :
    decode (utf8Encode text) = .ok (utf8Encode text) := by
  have hdet := detectBom_utf8Encode text hs h0 hbom
  unfold decode
  simp [hdet, bomLength]

/-- Claim C9: loading the byte-order-marked UTF-16 little-endian encoding
of a config text produces the same structured `AADConfig` as loading the
UTF-8 encoding of the same text, for every unmarshaller; the text consists
of Unicode scalar values and starts neither with U+0000 nor with the
byte-order-mark character U+FEFF. -/
theorem C9_utf16le_bom_same_config (text : List Nat)
    (hs : ∀ c ∈ text, IsScalar c) (h0 : text.head? ≠ some 0)
    (hbom : text.head? ≠ some 0xFEFF)
    (unmarshal : List Nat → Except String AADConfig) :
    loadAADConfigFromBytes unmarshal (utf16leBomBytes text) =
      loadAADConfigFromBytes unmarshal (utf8Encode text) := by
  unfold loadAADConfigFromBytes
  rw [decode_utf16leBomBytes text hs h0, decode_utf8Encode text hs h0 hbom]

/-- An unmarshaller double distinguishing empty from non-empty input. -/
def unmarshalProbe : List Nat → Except String AADConfig := fun bs =>
  if bs = [] then .error "empty input" else .ok emptyAAD

/-- Witness for C9 at the two-character text `hi` (code points 104, 105). -/
theorem C9_witness :
    loadAADConfigFromBytes unmarshalProbe (utf16leBomBytes [104, 105]) =
      loadAADConfigFromBytes unmarshalProbe (utf8Encode [104, 105]) :=
  C9_utf16le_bom_same_config [104, 105] (by decide) (by decide) (by decide) unmarshalProbe

end Azkv
